import Mathlib

/-!
Shallow embedding of the TherapEase client core: the result aggregation in
the transcription service, the audio file selection handler of the Speech
component, and the axios response interceptor that manages the access and
refresh token pair.  The definitions below are direct translations of the
TypeScript source; theorems about the specified behaviour follow.
-/

namespace TherapEase

/-- Model of the JavaScript expression `Math.round((c / N) * 100)` for
natural `c` and `N`.  `Math.round` rounds half toward positive infinity,
so for nonnegative arguments the value is `⌊100 * c / N + 1 / 2⌋`, which
equals the natural division `(200 * c + N) / (2 * N)`.  The JS expression
is NaN when `N = 0`; the model is only used (and only related to real
rounding) for `N > 0`, matching the source where the divisor is the
length of the list being aggregated. -/
def jsRound (c N : Nat) : Nat := (200 * c + N) / (2 * N)

/-- Model of the JavaScript `toLowerCase()` on the strings this client
handles: lowercase every character. -/
def jsToLowerCase (s : String) : String := ⟨s.data.map Char.toLower⟩

/-- Helper for `jsSplitDot`: walk the characters, accumulating the
current chunk in reverse. -/
def splitDotAux : List Char → List Char → List String
  | [], cur => [⟨cur.reverse⟩]
  | c :: rest, cur =>
    if c = '.' then ⟨cur.reverse⟩ :: splitDotAux rest []
    else splitDotAux rest (c :: cur)

/-- Model of the JavaScript `split(".")` on a string: the chunks
between the dots, always at least one (possibly empty) chunk. -/
def jsSplitDot (s : String) : List String := splitDotAux s.data []

/-! ## TranscriptionService.recognizeSpeakers (speaker aggregation) -/

/-- One diarized utterance: `{ speaker, utterance }`. -/
structure Utterance where
  speaker : String
  utterance : String
deriving DecidableEq

/-- Per-speaker entry of the `speakerStats` map: key together with
`{ count, utterances }`.  The JS `Map` preserves insertion order, so the
map is modelled as an ordered association list. -/
structure StatEntry where
  key : String
  count : Nat
  utterances : List String
deriving DecidableEq

/-- One step of the `diarizedData.forEach` loop: if the speaker is
already present its entry is updated in place (count incremented and the
utterance pushed), otherwise a fresh entry is appended at the end, as a
JS `Map.set` of a new key does. -/
def bumpStat : List StatEntry → String → String → List StatEntry
  | [], s, u => [⟨s, 1, [u]⟩]
  | e :: rest, s, u =>
    if e.key = s then ⟨e.key, e.count + 1, e.utterances ++ [u]⟩ :: rest
    else e :: bumpStat rest s u

/-- The `speakerStats` map after the `forEach` loop over the diarized
conversation. -/
def collectStats (l : List Utterance) : List StatEntry :=
  l.foldl (fun acc it => bumpStat acc it.speaker it.utterance) []

/-- The fixed `speakerColors` palette. -/
def speakerColors : List String :=
  ["bg-indigo-500", "bg-emerald-500", "bg-rose-500",
   "bg-amber-500", "bg-cyan-500", "bg-purple-500"]

/-- One element of the `speakers` array built from the stats map. -/
structure SpeakerStats where
  name : String
  timeSpoken : String
  percentage : Nat
  color : String
deriving DecidableEq

/-- Return value of `recognizeSpeakers` after the response transform. -/
structure SpeakerRecognitionResponse where
  diarized_conversation : List Utterance
  speakers : List SpeakerStats
  totalSpeakers : Nat
  duration : String
deriving DecidableEq

/-- The aggregation part of `TranscriptionService.recognizeSpeakers`,
applied to the `diarized_conversation` list of the service response:
count utterances per speaker in encounter order, then map each entry to
`{ name, timeSpoken, percentage, color }` where the percentage is
`Math.round((count / diarizedData.length) * 100)` and the color cycles
through the palette by entry index. -/
def recognizeSpeakers (diarizedData : List Utterance) : SpeakerRecognitionResponse :=
  let stats := collectStats diarizedData
  let speakers := stats.enum.map (fun p =>
    { name := p.2.key
      timeSpoken := toString p.2.count ++ " utterances"
      percentage := jsRound p.2.count diarizedData.length
      color := speakerColors.getD (p.1 % speakerColors.length) "" })
  { diarized_conversation := diarizedData
    speakers := speakers
    totalSpeakers := speakers.length
    duration := toString diarizedData.length ++ " utterances" }

/-! ## TranscriptionService.analyzeSentiment (sentiment aggregation) -/

/-- The `sentiment_data` attached to an utterance. -/
structure SentimentData where
  primary_emotion : String
  emotion_intensity : Nat
  brief_analysis : Option String
  therapeutic_significance : Option String
deriving DecidableEq

/-- One element of the `analyzed_conversation` list. -/
structure UtteranceWithSentiment where
  speaker : String
  utterance : String
  sentiment_data : SentimentData
deriving DecidableEq

/-- The four emotion buckets of the fixed keyword table. -/
inductive EmotionBucket where
  | positive
  | neutral
  | mixed
  | negative
deriving DecidableEq

/-- The keyword table of the `forEach` body as a classifier: lowercase
the free-text emotion, then joy and happiness are positive, neutral is
neutral, anxiety and fear are negative, and anything else is mixed. -/
def bucketOf (e : String) : EmotionBucket :=
  let emotion := jsToLowerCase e
  if emotion = "joy" ∨ emotion = "happiness" then .positive
  else if emotion = "neutral" then .neutral
  else if emotion = "anxiety" ∨ emotion = "fear" then .negative
  else .mixed

/-- The `emotionCounts` record of four counters. -/
structure EmotionCounts where
  positive : Nat
  neutral : Nat
  mixed : Nat
  negative : Nat
deriving DecidableEq

/-- One step of the `analyzedData.forEach` loop: lowercase the primary
emotion and increment exactly one of the four counters following the
if chain of the source. -/
def bumpEmotion (ec : EmotionCounts) (e : String) : EmotionCounts :=
  let emotion := jsToLowerCase e
  if emotion = "joy" ∨ emotion = "happiness" then
    { ec with positive := ec.positive + 1 }
  else if emotion = "neutral" then
    { ec with neutral := ec.neutral + 1 }
  else if emotion = "anxiety" ∨ emotion = "fear" then
    { ec with negative := ec.negative + 1 }
  else
    { ec with mixed := ec.mixed + 1 }

/-- The `emotionCounts` value after the `forEach` loop. -/
def emotionCounts (l : List UtteranceWithSentiment) : EmotionCounts :=
  l.foldl (fun ec it => bumpEmotion ec it.sentiment_data.primary_emotion) ⟨0, 0, 0, 0⟩

/-- The `emotionalPatterns` record of four percentages. -/
structure EmotionalPatterns where
  positive : Nat
  neutral : Nat
  mixed : Nat
  negative : Nat
deriving DecidableEq

/-- Return value of `analyzeSentiment` after the response transform. -/
structure SentimentAnalysisResponse where
  analyzed_conversation : List UtteranceWithSentiment
  overallSentiment : String
  confidenceScore : Nat
  duration : String
  emotionalPatterns : EmotionalPatterns
  detailedAnalysis : String
deriving DecidableEq

/-- Truthiness of the optional `brief_analysis` field: in JS both a
missing field and the empty string are falsy. -/
def hasBriefAnalysis (it : UtteranceWithSentiment) : Bool :=
  match it.sentiment_data.brief_analysis with
  | some s => s ≠ ""
  | none => false

/-- The aggregation part of `TranscriptionService.analyzeSentiment`,
applied to the `analyzed_conversation` list of the service response:
bucket each utterance, turn the counts into percentages with
`Math.round((count / total) * 100)`, derive the overall sentiment from
the positive and negative percentages, and join the per-speaker brief
analyses. -/
def analyzeSentiment (analyzedData : List UtteranceWithSentiment) : SentimentAnalysisResponse :=
  let ec := emotionCounts analyzedData
  let total := analyzedData.length
  let emotionalPatterns : EmotionalPatterns :=
    { positive := jsRound ec.positive total
      neutral := jsRound ec.neutral total
      mixed := jsRound ec.mixed total
      negative := jsRound ec.negative total }
  let overallSentiment :=
    if emotionalPatterns.positive > emotionalPatterns.negative then "Positive"
    else if emotionalPatterns.negative > emotionalPatterns.positive then "Negative"
    else "Neutral"
  let detailedAnalysis :=
    String.intercalate "\n\n"
      ((analyzedData.filter hasBriefAnalysis).map
        (fun it => it.speaker ++ ": " ++ (it.sentiment_data.brief_analysis.getD "")))
  { analyzed_conversation := analyzedData
    overallSentiment := overallSentiment
    confidenceScore := 85
    duration := toString analyzedData.length ++ " utterances"
    emotionalPatterns := emotionalPatterns
    detailedAnalysis := detailedAnalysis }

/-! ## Speech component: file selection -/

/-- A picked file, identified by its name. -/
structure FileDesc where
  name : String
deriving DecidableEq

/-- The component state touched by `handleFileUpload`: the three React
state slots `audioBlob`, `selectedFile` and `audioSource`. -/
structure SpeechState where
  audioBlob : Option String
  selectedFile : Option FileDesc
  audioSource : Option String
deriving DecidableEq

/-- The `cleanupPreviousAudio` helper: revoke the previous object URL
and reset all three state slots to null. -/
def cleanupPreviousAudio (_st : SpeechState) : SpeechState :=
  ⟨none, none, none⟩

/-- The `supportedTypes` allow-list of `handleFileUpload`. -/
def supportedTypes : List String :=
  [".mp3", ".mp4", ".mpeg", ".m4a", ".wav", ".webm"]

/-- Deterministic model of `URL.createObjectURL` on a picked file. -/
def createObjectURL (f : FileDesc) : String := "blob:" ++ f.name

/-- Result of a `handleFileUpload` call, beside the state update. -/
inductive UploadOutcome where
  | accepted
  | unsupportedFormat
  | noFile
deriving DecidableEq

/-- The `handleFileUpload` handler: take the first picked file if any,
clean up the previous audio, derive the lowercased dotted extension
from the file name, and either reject unsupported extensions (the
thrown error is caught and logged, leaving the state as the cleanup
left it) or store the file and its object URL. -/
def handleFileUpload (st : SpeechState) (files : Option FileDesc) :
    UploadOutcome × SpeechState :=
  match files with
  | none => (.noFile, st)
  | some file =>
    let cleaned := cleanupPreviousAudio st
    let fileExtension := "." ++ jsToLowerCase ((jsSplitDot file.name).getLastD "")
    if fileExtension ∈ supportedTypes then
      (.accepted,
       { cleaned with
         selectedFile := some file
         audioSource := some (createObjectURL file) })
    else
      (.unsupportedFormat, cleaned)

/-! ## Axios response interceptor (session token manager) -/

/-- The persisted token pair in AsyncStorage. -/
structure Storage where
  access_token : Option String
  refresh_token : Option String
deriving DecidableEq

/-- The relevant part of an axios request config: the custom retry
marker and the Authorization header. -/
structure RequestConfig where
  retryFlag : Bool
  authorization : Option String
deriving DecidableEq

/-- A response error as seen by the interceptor: the optional HTTP
status of `error.response` and the originating request config. -/
structure ErrorEvent where
  status : Option Nat
  config : RequestConfig
deriving DecidableEq

/-- What the error branch of the response interceptor resolves to:
reject with the original error, reject with the refresh error, or
re-issue the original request. -/
inductive InterceptorOutcome where
  | rejected (status : Option Nat)
  | rejectedRefresh
  | retried (config : RequestConfig)
deriving DecidableEq

/-- Storage after `AsyncStorage.multiRemove` on both token keys. -/
def clearedStorage : Storage := ⟨none, none⟩

/-- The error branch of the axios response interceptor in
`app/utils/api.ts` (the variant that clears storage when recovery
fails).  The refresh endpoint is a parameter mapping the posted refresh
token to the returned `{ access, refresh }` pair, or to a failure.
Returns the outcome, the updated storage, and the number of refresh
calls issued (zero or one). -/
def responseErrorInterceptor (refreshEndpoint : String → Option (String × String))
    (st : Storage) (error : ErrorEvent) : InterceptorOutcome × Storage × Nat :=
  if error.status = some 401 ∧ error.config.retryFlag = false then
    let originalRequest : RequestConfig := { error.config with retryFlag := true }
    match st.refresh_token with
    | none => (.rejected error.status, clearedStorage, 0)
    | some refresh =>
      match refreshEndpoint refresh with
      | some (access, newRefresh) =>
        (.retried { originalRequest with authorization := some ("Bearer " ++ access) },
         { access_token := some access, refresh_token := some newRefresh }, 1)
      | none => (.rejectedRefresh, clearedStorage, 1)
  else (.rejected error.status, st, 0)

/-- Sequential processing of several response errors through the
interceptor, threading storage and totalling the refresh calls.  The
interceptor has no cross-request state besides storage, so any
interleaving of two failing requests runs each error handler in full;
this models one such schedule. -/
def processErrors (refreshEndpoint : String → Option (String × String)) :
    Storage → List ErrorEvent → Storage × Nat × List InterceptorOutcome
  | st, [] => (st, 0, [])
  | st, e :: rest =>
    let r := responseErrorInterceptor refreshEndpoint st e
    let next := processErrors refreshEndpoint r.2.1 rest
    (next.1, r.2.2 + next.2.1, r.1 :: next.2.2)

/-! ## Specification-side derived notions -/

/-- Keep the first occurrence of every element, in encounter order. -/
def dedupKeepFirst : List String → List String
  | [] => []
  | s :: rest => s :: (dedupKeepFirst rest).filter (fun t => t ≠ s)

/-- The group entry a correct grouping assigns to speaker `k` in `l`:
the key, the number of utterances of `k`, and their texts in order. -/
def groupEntry (l : List Utterance) (k : String) : StatEntry :=
  ⟨k, l.countP (fun u => u.speaker == k),
   (l.filter (fun u => u.speaker == k)).map (·.utterance)⟩

/-- Increment the counter of one bucket. -/
def addBucket (ec : EmotionCounts) : EmotionBucket → EmotionCounts
  | .positive => { ec with positive := ec.positive + 1 }
  | .neutral => { ec with neutral := ec.neutral + 1 }
  | .mixed => { ec with mixed := ec.mixed + 1 }
  | .negative => { ec with negative := ec.negative + 1 }

/-- Number of utterances of `l` whose primary emotion falls in bucket
`b` under the keyword table. -/
def bucketCount (b : EmotionBucket) (l : List UtteranceWithSentiment) : Nat :=
  l.countP (fun it => bucketOf it.sentiment_data.primary_emotion == b)

/-! ## Helper lemmas -/

theorem jsRound_mul_le (c N : Nat) : 2 * N * jsRound c N ≤ 200 * c + N := by
  have h := Nat.div_mul_le_self (200 * c + N) (2 * N)
  calc 2 * N * jsRound c N = (200 * c + N) / (2 * N) * (2 * N) := by
        rw [jsRound, Nat.mul_comm]
    _ ≤ 200 * c + N := h

theorem lt_jsRound_mul (c N : Nat) (hN : 0 < N) :
    200 * c + N < 2 * N * jsRound c N + 2 * N := by
  have h2N : 0 < 2 * N := by omega
  have hmod := Nat.div_add_mod (200 * c + N) (2 * N)
  have hlt : (200 * c + N) % (2 * N) < 2 * N := Nat.mod_lt _ h2N
  calc 200 * c + N = 2 * N * ((200 * c + N) / (2 * N)) + (200 * c + N) % (2 * N) := hmod.symm
    _ < 2 * N * ((200 * c + N) / (2 * N)) + 2 * N := by omega
    _ = 2 * N * jsRound c N + 2 * N := by rw [jsRound]

theorem jsRound_le_hundred (c N : Nat) (hN : 0 < N) (hc : c ≤ N) :
    jsRound c N ≤ 100 := by
  have h2N : 0 < 2 * N := by omega
  have : (200 * c + N) / (2 * N) < 101 := by
    rw [Nat.div_lt_iff_lt_mul h2N]
    omega
  rw [jsRound]
  omega

theorem jsRound_eq_round (c N : Nat) (hN : 0 < N) :
    (jsRound c N : ℤ) = round ((c : ℚ) / N * 100) := by
  have hNQ : (N : ℚ) ≠ 0 := by exact_mod_cast hN.ne'
  have hBpos : (0 : ℚ) < ((2 * N : ℕ) : ℚ) := by
    have : (0 : ℕ) < 2 * N := by omega
    exact_mod_cast this
  have hval : (c : ℚ) / N * 100 + 1 / 2 = ((200 * c + N : ℕ) : ℚ) / ((2 * N : ℕ) : ℚ) := by
    push_cast
    field_simp
    ring
  rw [round_eq, hval, eq_comm, Int.floor_eq_iff]
  constructor
  · rw [le_div_iff₀ hBpos]
    have h : jsRound c N * (2 * N) ≤ 200 * c + N := Nat.div_mul_le_self (200 * c + N) (2 * N)
    exact_mod_cast h
  · rw [div_lt_iff₀ hBpos]
    have hmod := Nat.div_add_mod (200 * c + N) (2 * N)
    have hlt : (200 * c + N) % (2 * N) < 2 * N := Nat.mod_lt _ (by omega)
    have h : 200 * c + N < (jsRound c N + 1) * (2 * N) := by
      have hstep := Nat.add_lt_add_left hlt (2 * N * ((200 * c + N) / (2 * N)))
      calc 200 * c + N
          = 2 * N * ((200 * c + N) / (2 * N)) + (200 * c + N) % (2 * N) := hmod.symm
        _ < 2 * N * ((200 * c + N) / (2 * N)) + 2 * N := hstep
        _ = ((200 * c + N) / (2 * N) + 1) * (2 * N) := by ring
        _ = (jsRound c N + 1) * (2 * N) := by rw [jsRound]
    exact_mod_cast h

theorem mem_dedupKeepFirst {t : String} : ∀ {xs : List String},
    t ∈ dedupKeepFirst xs ↔ t ∈ xs := by
  intro xs
  induction xs with
  | nil => simp [dedupKeepFirst]
  | cons s rest ih =>
    by_cases hts : t = s
    · subst hts
      simp [dedupKeepFirst]
    · simp [dedupKeepFirst, List.mem_filter, hts, ih]

theorem nodup_dedupKeepFirst : ∀ (xs : List String), (dedupKeepFirst xs).Nodup := by
  intro xs
  induction xs with
  | nil => simp [dedupKeepFirst]
  | cons s rest ih =>
    rw [dedupKeepFirst]
    refine List.Nodup.cons ?_ (ih.filter _)
    intro hmem
    have := (List.mem_filter.mp hmem).2
    simp at this

theorem dedupKeepFirst_snoc (xs : List String) (s : String) :
    dedupKeepFirst (xs ++ [s]) =
      if s ∈ xs then dedupKeepFirst xs else dedupKeepFirst xs ++ [s] := by
  induction xs with
  | nil => simp [dedupKeepFirst]
  | cons x rest ih =>
    rw [List.cons_append]
    simp only [dedupKeepFirst]
    rw [ih]
    by_cases hsrest : s ∈ rest
    · rw [if_pos hsrest, if_pos (List.mem_cons_of_mem x hsrest)]
    · rw [if_neg hsrest]
      by_cases hsx : s = x
      · subst hsx
        rw [if_pos (List.mem_cons_self s rest), List.filter_append]
        simp
      · have hmem : s ∉ x :: rest := by
          simp [hsx, hsrest]
        rw [if_neg hmem, List.filter_append, List.cons_append]
        simp [hsx]

theorem groupEntry_snoc (l : List Utterance) (u : Utterance) (k : String) :
    groupEntry (l ++ [u]) k =
      if u.speaker = k then
        ⟨k, (groupEntry l k).count + 1, (groupEntry l k).utterances ++ [u.utterance]⟩
      else groupEntry l k := by
  by_cases h : u.speaker = k
  · simp [groupEntry, h, List.countP_append, List.filter_append, List.countP_cons,
      List.filter_cons]
  · have hb : (u.speaker == k) = false := by
      simp [h]
    simp [groupEntry, h, List.countP_append, List.filter_append, List.countP_cons,
      List.filter_cons, hb]

theorem bumpStat_map (ks : List String) (hnd : ks.Nodup) (f : String → StatEntry)
    (hf : ∀ k, (f k).key = k) (s u : String) :
    bumpStat (ks.map f) s u =
      if s ∈ ks then
        ks.map (fun k => if k = s then ⟨k, (f k).count + 1, (f k).utterances ++ [u]⟩ else f k)
      else ks.map f ++ [⟨s, 1, [u]⟩] := by
  induction ks with
  | nil => simp [bumpStat]
  | cons k0 rest ih =>
    have hnd0 := List.nodup_cons.mp hnd
    by_cases hk0 : k0 = s
    · subst hk0
      rw [if_pos (List.mem_cons_self k0 rest), List.map_cons, List.map_cons, if_pos rfl]
      simp only [bumpStat]
      rw [if_pos (hf k0), hf k0]
      congr 1
      apply List.map_congr_left
      intro t ht
      exact (if_neg (fun h : t = k0 => hnd0.1 (h ▸ ht))).symm
    · rw [List.map_cons]
      simp only [bumpStat, hf k0, if_neg hk0]
      rw [ih hnd0.2]
      by_cases hmem : s ∈ rest
      · rw [if_pos hmem, if_pos (List.mem_cons_of_mem k0 hmem), List.map_cons, if_neg hk0]
      · have hmem2 : s ∉ k0 :: rest := by
          intro hc
          rcases List.mem_cons.mp hc with h | h
          · exact hk0 h.symm
          · exact hmem h
        rw [if_neg hmem, if_neg hmem2, List.cons_append]

theorem collectStats_snoc (l : List Utterance) (u : Utterance) :
    collectStats (l ++ [u]) = bumpStat (collectStats l) u.speaker u.utterance := by
  simp [collectStats, List.foldl_append]

theorem collectStats_eq (l : List Utterance) :
    collectStats l = (dedupKeepFirst (l.map (·.speaker))).map (groupEntry l) := by
  induction l using List.reverseRecOn with
  | nil => simp [collectStats, dedupKeepFirst]
  | append_singleton l u ih =>
    rw [collectStats_snoc, ih,
      bumpStat_map _ (nodup_dedupKeepFirst _) _ (fun k => rfl) u.speaker u.utterance]
    rw [List.map_append, List.map_cons, List.map_nil, dedupKeepFirst_snoc]
    by_cases hmem : u.speaker ∈ l.map (·.speaker)
    · rw [if_pos hmem, if_pos (mem_dedupKeepFirst.mpr hmem)]
      apply List.map_congr_left
      intro k hk
      rw [groupEntry_snoc]
      by_cases hks : k = u.speaker
      · rw [if_pos hks, if_pos hks.symm, hks]
      · rw [if_neg hks, if_neg (fun h => hks h.symm)]
    · rw [if_neg hmem, if_neg (fun h => hmem (mem_dedupKeepFirst.mp h)), List.map_append]
      congr 1
      · apply List.map_congr_left
        intro k hk
        have hkl : k ∈ l.map (·.speaker) := mem_dedupKeepFirst.mp hk
        have hks : u.speaker ≠ k := fun h => hmem (h ▸ hkl)
        rw [groupEntry_snoc, if_neg hks]
      · simp only [List.map_cons, List.map_nil]
        rw [groupEntry_snoc, if_pos rfl]
        have hc : l.countP (fun v => v.speaker == u.speaker) = 0 := by
          rw [List.countP_eq_zero]
          intro v hv
          simp only [beq_iff_eq]
          intro hvs
          exact hmem (hvs ▸ List.mem_map_of_mem (·.speaker) hv)
        have hfil : l.filter (fun v => v.speaker == u.speaker) = [] := by
          rw [List.filter_eq_nil_iff]
          intro v hv
          simp only [beq_iff_eq]
          intro hvs
          exact hmem (hvs ▸ List.mem_map_of_mem (·.speaker) hv)
        simp [groupEntry, hc, hfil]

theorem sum_map_filter_ne (ks : List String) (hnd : ks.Nodup) (f : String → Nat) (s : String) :
    (ks.map f).sum =
      ((ks.filter (fun t => t ≠ s)).map f).sum + (if s ∈ ks then f s else 0) := by
  induction ks with
  | nil => simp
  | cons k0 rest ih =>
    have hnd0 := List.nodup_cons.mp hnd
    have hrec := ih hnd0.2
    by_cases hk0 : k0 = s
    · subst hk0
      have hfil : rest.filter (fun t => t ≠ k0) = rest := by
        apply List.filter_eq_self.mpr
        intro a ha
        have hne : a ≠ k0 := fun h => hnd0.1 (h ▸ ha)
        simp [hne]
      have hsr : k0 ∉ rest := hnd0.1
      simp [List.filter_cons, hfil, hsr] at hrec ⊢
      omega
    · by_cases hsrest : s ∈ rest <;>
        simp [List.filter_cons, hk0, hsrest, Ne.symm hk0] at hrec ⊢ <;>
        omega

theorem sum_countP_dedupKeepFirst (xs : List String) :
    ((dedupKeepFirst xs).map (fun k => xs.countP (fun t => t == k))).sum = xs.length := by
  induction xs with
  | nil => simp [dedupKeepFirst]
  | cons s rest ih =>
    simp only [dedupKeepFirst, List.map_cons, List.sum_cons]
    have hpt : ((dedupKeepFirst rest).filter (fun t => t ≠ s)).map
          (fun k => (s :: rest).countP (fun t => t == k)) =
        ((dedupKeepFirst rest).filter (fun t => t ≠ s)).map
          (fun k => rest.countP (fun t => t == k)) := by
      apply List.map_congr_left
      intro k hk
      have hks : k ≠ s := by
        have := (List.mem_filter.mp hk).2
        simpa using this
      have hsk : ((s == k) : Bool) = false := by
        have hne : ¬s = k := fun h => hks h.symm
        simpa using hne
      rw [List.countP_cons, hsk]
      simp
    rw [hpt]
    have hsplit := sum_map_filter_ne (dedupKeepFirst rest) (nodup_dedupKeepFirst rest)
      (fun k => rest.countP (fun t => t == k)) s
    rw [ih] at hsplit
    have hhead : (s :: rest).countP (fun t => t == s) = rest.countP (fun t => t == s) + 1 := by
      rw [List.countP_cons]
      simp
    by_cases hs : s ∈ rest
    · rw [if_pos (mem_dedupKeepFirst.mpr hs)] at hsplit
      simp only [hhead, List.length_cons]
      omega
    · rw [if_neg (fun h => hs (mem_dedupKeepFirst.mp h))] at hsplit
      have hzero : rest.countP (fun t => t == s) = 0 := by
        rw [List.countP_eq_zero]
        intro t ht
        simp only [beq_iff_eq]
        exact fun h => hs (h ▸ ht)
      simp only [hhead, hzero, List.length_cons]
      omega

theorem sum_jsRound_bounds (N : ℕ) (hN : 0 < N) (cs : List ℕ) :
    200 * (cs.sum : ℤ) - (N : ℤ) * cs.length + cs.length ≤
        2 * (N : ℤ) * ((cs.map (fun c => jsRound c N)).sum : ℤ) ∧
      2 * (N : ℤ) * ((cs.map (fun c => jsRound c N)).sum : ℤ) ≤
        200 * (cs.sum : ℤ) + (N : ℤ) * cs.length := by
  induction cs with
  | nil => simp
  | cons c cs ih =>
    have h1 : 2 * N * jsRound c N ≤ 200 * c + N := jsRound_mul_le c N
    have h2 : 200 * c + N < 2 * N * jsRound c N + 2 * N := lt_jsRound_mul c N hN
    have h1z : 2 * (N : ℤ) * (jsRound c N : ℤ) ≤ 200 * (c : ℤ) + N := by exact_mod_cast h1
    have h2z : 200 * (c : ℤ) + (N : ℤ) < 2 * N * (jsRound c N : ℤ) + 2 * N := by
      exact_mod_cast h2
    obtain ⟨ihl, ihr⟩ := ih
    simp only [List.map_cons, List.sum_cons, List.length_cons]
    push_cast at ihl ihr ⊢
    constructor
    · nlinarith [ihl]
    · nlinarith [ihr]

theorem enum_map_value {α β : Type} (xs : List α) (g : α → β) :
    xs.enum.map (fun p => g p.2) = xs.map g := by
  have h1 : xs.enum.map (fun p => g p.2) = (xs.enum.map Prod.snd).map g := by
    rw [List.map_map]
    rfl
  rw [h1, List.enum_map_snd]

theorem speakers_eq (l : List Utterance) :
    (recognizeSpeakers l).speakers =
      (List.map (groupEntry l) (dedupKeepFirst (l.map (·.speaker)))).enum.map (fun p =>
        { name := p.2.key
          timeSpoken := toString p.2.count ++ " utterances"
          percentage := jsRound p.2.count l.length
          color := speakerColors.getD (p.1 % speakerColors.length) "" }) := by
  simp only [recognizeSpeakers]
  rw [collectStats_eq]

theorem speakers_map_percentage (l : List Utterance) :
    (recognizeSpeakers l).speakers.map (·.percentage) =
      (dedupKeepFirst (l.map (·.speaker))).map
        (fun k => jsRound (l.countP (fun u => u.speaker == k)) l.length) := by
  rw [speakers_eq, List.map_map]
  have h := enum_map_value (List.map (groupEntry l) (dedupKeepFirst (l.map (·.speaker))))
    (fun e => jsRound e.count l.length)
  rw [show ((fun s : SpeakerStats => s.percentage) ∘ fun p : Nat × StatEntry =>
      ({ name := p.2.key, timeSpoken := toString p.2.count ++ " utterances",
         percentage := jsRound p.2.count l.length,
         color := speakerColors.getD (p.1 % speakerColors.length) "" } : SpeakerStats)) =
      fun p : Nat × StatEntry => jsRound p.2.count l.length from rfl]
  rw [h, List.map_map]
  rfl

theorem bumpEmotion_eq_addBucket (ec : EmotionCounts) (e : String) :
    bumpEmotion ec e = addBucket ec (bucketOf e) := by
  simp only [bumpEmotion, bucketOf]
  split_ifs <;> rfl

theorem emotionCounts_go (l : List UtteranceWithSentiment) : ∀ ec : EmotionCounts,
    l.foldl (fun ec it => bumpEmotion ec it.sentiment_data.primary_emotion) ec =
      ⟨ec.positive + bucketCount .positive l, ec.neutral + bucketCount .neutral l,
       ec.mixed + bucketCount .mixed l, ec.negative + bucketCount .negative l⟩ := by
  induction l with
  | nil => intro ec; simp [bucketCount]
  | cons it rest ih =>
    intro ec
    rw [List.foldl_cons, bumpEmotion_eq_addBucket, ih]
    rcases hb : bucketOf it.sentiment_data.primary_emotion <;>
      simp [addBucket, bucketCount, List.countP_cons, hb] <;> omega

theorem emotionCounts_eq (l : List UtteranceWithSentiment) :
    emotionCounts l = ⟨bucketCount .positive l, bucketCount .neutral l,
      bucketCount .mixed l, bucketCount .negative l⟩ := by
  have h := emotionCounts_go l ⟨0, 0, 0, 0⟩
  simpa [emotionCounts] using h

theorem bucketCount_sum (l : List UtteranceWithSentiment) :
    bucketCount .positive l + bucketCount .neutral l + bucketCount .mixed l +
      bucketCount .negative l = l.length := by
  induction l with
  | nil => simp [bucketCount]
  | cons it rest ih =>
    rcases hb : bucketOf it.sentiment_data.primary_emotion <;>
      simp [bucketCount, List.countP_cons, hb] at ih ⊢ <;> omega

theorem analyzeSentiment_overall (l : List UtteranceWithSentiment) :
    (analyzeSentiment l).overallSentiment =
      if (analyzeSentiment l).emotionalPatterns.negative <
          (analyzeSentiment l).emotionalPatterns.positive then "Positive"
      else if (analyzeSentiment l).emotionalPatterns.positive <
          (analyzeSentiment l).emotionalPatterns.negative then "Negative"
      else "Neutral" := rfl

/-! ## Claim theorems -/

/-- Claim C1: the spec asks for a single shared refresh call when two
concurrent bearer requests both receive 401.  The interceptor has no
shared in-flight refresh state, only the per-request retry marker, so
handling the two 401 failures issues two refresh calls to the refresh
endpoint, and the two retries even carry access tokens from two
different refresh responses; this theorem evaluates the model at that
failing input. -/
theorem two_concurrent_401_two_refresh_calls :
    processErrors (fun r => some ("A" ++ r, "R" ++ r)) ⟨some "acc0", some "ref0"⟩
      [⟨some 401, ⟨false, some "Bearer acc0"⟩⟩, ⟨some 401, ⟨false, some "Bearer acc0"⟩⟩] =
    (⟨some "ARref0", some "RRref0"⟩, 2,
     [.retried ⟨true, some "Bearer Aref0"⟩, .retried ⟨true, some "Bearer ARref0"⟩]) := by
  decide

/-- Claim C2: the spec asks for a typed EmptyResultSet failure on an
empty diarization list.  The aggregation in recognizeSpeakers instead
returns a successful response with zero speakers (the per-speaker
division is never reached, so no division by zero occurs either); this
theorem evaluates the model at the empty list. -/
theorem recognizeSpeakers_empty_returns_zero_speaker_success :
    recognizeSpeakers [] = ⟨[], [], 0, "0 utterances"⟩ := by
  decide

/-- Claim C3 counterexample: selecting session.mov is rejected as an
unsupported format, but the previously selected artifact is NOT left
unchanged: cleanupPreviousAudio runs before the extension check, so the
previous selected file and audio source are cleared by the rejected
call. -/
theorem selectFile_mov_clears_previous_artifact :
    handleFileUpload ⟨none, some ⟨"old.mp3"⟩, some "blob:old.mp3"⟩ (some ⟨"session.mov"⟩) =
      (.unsupportedFormat, ⟨none, none, none⟩) ∧
    (⟨none, none, none⟩ : SpeechState) ≠ ⟨none, some ⟨"old.mp3"⟩, some "blob:old.mp3"⟩ := by
  decide

/-- Claim C3 (amended): selectFile with a file whose lowercased dotted
extension is outside the allow-list rejects it with UnsupportedFormat,
but first clears the capture state (previous artifact released and all
three state slots reset), so after the rejected call no artifact is
current. -/
theorem selectFile_unsupported_rejects_and_clears (st : SpeechState) (file : FileDesc)
    (h : ("." ++ jsToLowerCase ((jsSplitDot file.name).getLastD "")) ∉ supportedTypes) :
    handleFileUpload st (some file) = (.unsupportedFormat, ⟨none, none, none⟩) := by
  simp only [handleFileUpload, cleanupPreviousAudio]
  rw [if_neg h]

/-- Witness for claim C3 at a concrete state and file. -/
theorem selectFile_unsupported_rejects_and_clears_witness :
    handleFileUpload ⟨some "blobbed", none, some "blob:rec.wav"⟩ (some ⟨"notes.txt"⟩) =
      (.unsupportedFormat, ⟨none, none, none⟩) :=
  selectFile_unsupported_rejects_and_clears ⟨some "blobbed", none, some "blob:rec.wav"⟩
    ⟨"notes.txt"⟩ (by decide)

/-- Claim C4: for every nonempty utterance list, speaker aggregation
groups utterances by speaker label in first-encounter order, counts
each group, and assigns each group the percentage round(100 * count
divided by N) with halves rounded away from zero (for nonnegative
arguments that is the Mathlib round of the rational value); the
documented three-utterance scenario yields exactly the two expected
speaker shares. -/
theorem speaker_aggregation_grouping_and_rounding (l : List Utterance) (_h : l ≠ []) :
    (recognizeSpeakers l).speakers.map (fun s => (s.name, s.timeSpoken, s.percentage)) =
      (dedupKeepFirst (l.map (·.speaker))).map (fun k =>
        (k, toString (l.countP (fun u => u.speaker == k)) ++ " utterances",
          jsRound (l.countP (fun u => u.speaker == k)) l.length)) ∧
    (∀ c N : ℕ, 0 < N → (jsRound c N : ℤ) = round ((c : ℚ) / N * 100)) ∧
    (recognizeSpeakers [⟨"A", "hi"⟩, ⟨"A", "there"⟩, ⟨"B", "hello"⟩]).speakers =
      [⟨"A", "2 utterances", 67, "bg-indigo-500"⟩, ⟨"B", "1 utterances", 33, "bg-emerald-500"⟩] := by
  refine ⟨?_, fun c N hN => jsRound_eq_round c N hN, by decide⟩
  rw [speakers_eq, List.map_map]
  have h2 := enum_map_value (List.map (groupEntry l) (dedupKeepFirst (l.map (·.speaker))))
    (fun e => (e.key, toString e.count ++ " utterances", jsRound e.count l.length))
  rw [show ((fun s : SpeakerStats => (s.name, s.timeSpoken, s.percentage)) ∘
      fun p : Nat × StatEntry =>
      ({ name := p.2.key, timeSpoken := toString p.2.count ++ " utterances",
         percentage := jsRound p.2.count l.length,
         color := speakerColors.getD (p.1 % speakerColors.length) "" } : SpeakerStats)) =
      fun p : Nat × StatEntry =>
        (p.2.key, toString p.2.count ++ " utterances", jsRound p.2.count l.length) from rfl]
  rw [h2, List.map_map]
  rfl

/-- Witness for claim C4 at a concrete two-speaker list. -/
theorem speaker_aggregation_grouping_and_rounding_witness :
    (recognizeSpeakers [⟨"X", "a"⟩, ⟨"Y", "b"⟩]).speakers.map
        (fun s => (s.name, s.timeSpoken, s.percentage)) =
      (dedupKeepFirst ([(⟨"X", "a"⟩ : Utterance), ⟨"Y", "b"⟩].map (·.speaker))).map (fun k =>
        (k, toString ([(⟨"X", "a"⟩ : Utterance), ⟨"Y", "b"⟩].countP
              (fun u => u.speaker == k)) ++ " utterances",
          jsRound ([(⟨"X", "a"⟩ : Utterance), ⟨"Y", "b"⟩].countP (fun u => u.speaker == k))
            ([(⟨"X", "a"⟩ : Utterance), ⟨"Y", "b"⟩].length))) ∧
    (∀ c N : ℕ, 0 < N → (jsRound c N : ℤ) = round ((c : ℚ) / N * 100)) ∧
    (recognizeSpeakers [⟨"A", "hi"⟩, ⟨"A", "there"⟩, ⟨"B", "hello"⟩]).speakers =
      [⟨"A", "2 utterances", 67, "bg-indigo-500"⟩, ⟨"B", "1 utterances", 33, "bg-emerald-500"⟩] :=
  speaker_aggregation_grouping_and_rounding [⟨"X", "a"⟩, ⟨"Y", "b"⟩] (by decide)

/-- Claim C5: every primary emotion is bucketed case-insensitively by
the fixed keyword table (joy and happiness positive, neutral neutral,
anxiety and fear negative, everything else mixed), the emotion counters
of the aggregation count exactly the utterances of each bucket, and the
documented four-utterance scenario yields the pattern 25/25/25/25. -/
theorem emotion_bucketing_table_and_scenario :
    (∀ e : String,
        (bucketOf e = .positive ↔
          jsToLowerCase e = "joy" ∨ jsToLowerCase e = "happiness") ∧
        (bucketOf e = .neutral ↔ jsToLowerCase e = "neutral") ∧
        (bucketOf e = .negative ↔
          jsToLowerCase e = "anxiety" ∨ jsToLowerCase e = "fear") ∧
        (bucketOf e = .mixed ↔
          ¬(jsToLowerCase e = "joy" ∨ jsToLowerCase e = "happiness" ∨
            jsToLowerCase e = "neutral" ∨ jsToLowerCase e = "anxiety" ∨
            jsToLowerCase e = "fear"))) ∧
    (∀ l : List UtteranceWithSentiment,
        emotionCounts l = ⟨bucketCount .positive l, bucketCount .neutral l,
          bucketCount .mixed l, bucketCount .negative l⟩) ∧
    (analyzeSentiment
        [⟨"A", "u1", ⟨"joy", 3, none, none⟩⟩, ⟨"B", "u2", ⟨"anxiety", 3, none, none⟩⟩,
         ⟨"A", "u3", ⟨"neutral", 3, none, none⟩⟩,
         ⟨"B", "u4", ⟨"anger", 3, none, none⟩⟩]).emotionalPatterns =
      ⟨25, 25, 25, 25⟩ := by
  refine ⟨?_, emotionCounts_eq, by decide⟩
  intro e
  simp only [bucketOf]
  generalize jsToLowerCase e = low
  split_ifs with h1 h2 h3
  · rcases h1 with h | h <;> subst h <;> simp
  · subst h2
    simp at h1
    simp [h1]
  · rcases h3 with h | h <;> subst h <;> simp
  · refine ⟨⟨fun hc => absurd hc (by decide), fun hc => absurd hc h1⟩,
      ⟨fun hc => absurd hc (by decide), fun hc => absurd hc h2⟩,
      ⟨fun hc => absurd hc (by decide), fun hc => absurd hc h3⟩,
      ⟨fun _ => ?_, fun _ => rfl⟩⟩
    intro hor
    rcases hor with h | h | h | h | h
    · exact h1 (Or.inl h)
    · exact h1 (Or.inr h)
    · exact h2 h
    · exact h3 (Or.inl h)
    · exact h3 (Or.inr h)

/-- Claim C6: for every nonempty annotated utterance list, the overall
sentiment is Positive exactly when the positive percentage exceeds the
negative one, Negative exactly when the negative percentage exceeds the
positive one, and Neutral exactly in the remaining case, that is when
the two percentages are equal (including when both are zero). -/
theorem overallSentiment_trichotomy (l : List UtteranceWithSentiment) (_h : l ≠ []) :
    ((analyzeSentiment l).overallSentiment = "Positive" ↔
        (analyzeSentiment l).emotionalPatterns.negative <
          (analyzeSentiment l).emotionalPatterns.positive) ∧
    ((analyzeSentiment l).overallSentiment = "Negative" ↔
        (analyzeSentiment l).emotionalPatterns.positive <
          (analyzeSentiment l).emotionalPatterns.negative) ∧
    ((analyzeSentiment l).overallSentiment = "Neutral" ↔
        (analyzeSentiment l).emotionalPatterns.positive =
          (analyzeSentiment l).emotionalPatterns.negative) := by
  rw [analyzeSentiment_overall]
  rcases Nat.lt_trichotomy (analyzeSentiment l).emotionalPatterns.positive
    (analyzeSentiment l).emotionalPatterns.negative with hlt | heq | hgt
  · rw [if_neg (by omega), if_pos hlt]
    exact ⟨⟨fun hc => absurd hc (by decide), fun hc => absurd hc (by omega)⟩,
      ⟨fun _ => hlt, fun _ => rfl⟩,
      ⟨fun hc => absurd hc (by decide), fun hc => absurd hc (by omega)⟩⟩
  · rw [if_neg (by omega), if_neg (by omega)]
    exact ⟨⟨fun hc => absurd hc (by decide), fun hc => absurd hc (by omega)⟩,
      ⟨fun hc => absurd hc (by decide), fun hc => absurd hc (by omega)⟩,
      ⟨fun _ => heq, fun _ => rfl⟩⟩
  · rw [if_pos hgt]
    exact ⟨⟨fun _ => hgt, fun _ => rfl⟩,
      ⟨fun hc => absurd hc (by decide), fun hc => absurd hc (by omega)⟩,
      ⟨fun hc => absurd hc (by decide), fun hc => absurd hc (by omega)⟩⟩

/-- Witness for claim C6 at a concrete one-utterance list, where the
pattern is fully positive and the overall sentiment is Positive. -/
theorem overallSentiment_trichotomy_witness :
    ((analyzeSentiment [⟨"A", "u", ⟨"joy", 4, none, none⟩⟩]).overallSentiment = "Positive" ↔
        (analyzeSentiment [⟨"A", "u", ⟨"joy", 4, none, none⟩⟩]).emotionalPatterns.negative <
          (analyzeSentiment [⟨"A", "u", ⟨"joy", 4, none, none⟩⟩]).emotionalPatterns.positive) ∧
    ((analyzeSentiment [⟨"A", "u", ⟨"joy", 4, none, none⟩⟩]).overallSentiment = "Negative" ↔
        (analyzeSentiment [⟨"A", "u", ⟨"joy", 4, none, none⟩⟩]).emotionalPatterns.positive <
          (analyzeSentiment [⟨"A", "u", ⟨"joy", 4, none, none⟩⟩]).emotionalPatterns.negative) ∧
    ((analyzeSentiment [⟨"A", "u", ⟨"joy", 4, none, none⟩⟩]).overallSentiment = "Neutral" ↔
        (analyzeSentiment [⟨"A", "u", ⟨"joy", 4, none, none⟩⟩]).emotionalPatterns.positive =
          (analyzeSentiment [⟨"A", "u", ⟨"joy", 4, none, none⟩⟩]).emotionalPatterns.negative) :=
  overallSentiment_trichotomy [⟨"A", "u", ⟨"joy", 4, none, none⟩⟩] (by decide)

/-- Claim C7: a request already retried once that receives a second 401
is rejected with the original unauthorized error; no refresh call is
made, storage is untouched, and the request is not re-issued. -/
theorem retried_request_second_401_rejects
    (refreshEndpoint : String → Option (String × String)) (st : Storage)
    (cfg : RequestConfig) (h : cfg.retryFlag = true) :
    responseErrorInterceptor refreshEndpoint st ⟨some 401, cfg⟩ =
      (.rejected (some 401), st, 0) := by
  simp [responseErrorInterceptor, h]

/-- Witness for claim C7 at a concrete storage and request. -/
theorem retried_request_second_401_rejects_witness :
    responseErrorInterceptor (fun r => some ("A" ++ r, "R" ++ r)) ⟨some "a", some "r"⟩
      ⟨some 401, ⟨true, some "Bearer a"⟩⟩ =
      (.rejected (some 401), ⟨some "a", some "r"⟩, 0) :=
  retried_request_second_401_rejects (fun r => some ("A" ++ r, "R" ++ r))
    ⟨some "a", some "r"⟩ ⟨true, some "Bearer a"⟩ rfl

/-- Claim C9: on a 401 for a not-yet-retried request, if no refresh
token is stored both tokens are cleared and the caller gets the
failure; if the refresh call fails both tokens are cleared and the
caller gets the failure; if the refresh call succeeds both stored
tokens are replaced by the returned pair and the request is re-issued
with the new bearer token. -/
theorem refresh_outcome_token_state :
    (∀ (fn : String → Option (String × String)) (a : Option String) (cfg : RequestConfig),
        cfg.retryFlag = false →
        responseErrorInterceptor fn ⟨a, none⟩ ⟨some 401, cfg⟩ =
          (.rejected (some 401), ⟨none, none⟩, 0)) ∧
    (∀ (fn : String → Option (String × String)) (a : Option String) (r : String)
        (cfg : RequestConfig), cfg.retryFlag = false → fn r = none →
        responseErrorInterceptor fn ⟨a, some r⟩ ⟨some 401, cfg⟩ =
          (.rejectedRefresh, ⟨none, none⟩, 1)) ∧
    (∀ (fn : String → Option (String × String)) (a : Option String) (r acc newR : String)
        (cfg : RequestConfig), cfg.retryFlag = false → fn r = some (acc, newR) →
        responseErrorInterceptor fn ⟨a, some r⟩ ⟨some 401, cfg⟩ =
          (.retried ⟨true, some ("Bearer " ++ acc)⟩, ⟨some acc, some newR⟩, 1)) := by
  refine ⟨?_, ?_, ?_⟩
  · intro fn a cfg h
    simp [responseErrorInterceptor, h, clearedStorage]
  · intro fn a r cfg h hr
    simp [responseErrorInterceptor, h, hr, clearedStorage]
  · intro fn a r acc newR cfg h hr
    simp [responseErrorInterceptor, h, hr]

/-- Witness for claim C9: the three cases at concrete inputs. -/
theorem refresh_outcome_token_state_witness :
    (responseErrorInterceptor (fun _ => none) ⟨some "a", none⟩ ⟨some 401, ⟨false, none⟩⟩ =
        (.rejected (some 401), ⟨none, none⟩, 0)) ∧
    (responseErrorInterceptor (fun _ => none) ⟨some "a", some "r"⟩ ⟨some 401, ⟨false, none⟩⟩ =
        (.rejectedRefresh, ⟨none, none⟩, 1)) ∧
    (responseErrorInterceptor (fun _ => some ("x", "y")) ⟨some "a", some "r"⟩
        ⟨some 401, ⟨false, none⟩⟩ =
        (.retried ⟨true, some "Bearer x"⟩, ⟨some "x", some "y"⟩, 1)) :=
  ⟨refresh_outcome_token_state.1 (fun _ => none) (some "a") ⟨false, none⟩ rfl,
   refresh_outcome_token_state.2.1 (fun _ => none) (some "a") "r" ⟨false, none⟩ rfl rfl,
   refresh_outcome_token_state.2.2 (fun _ => some ("x", "y")) (some "a") "r" "x" "y"
     ⟨false, none⟩ rfl rfl⟩

/-- Claim C8: for every nonempty utterance list, the sum of the speaker
share percentages lies within k of 100, where k is the number of
distinct speaker labels in the list. -/
theorem speaker_percentage_sum_tolerance (l : List Utterance) (h : l ≠ []) :
    (100 : ℤ) - ((l.map (·.speaker)).toFinset.card : ℤ) ≤
        (((((recognizeSpeakers l).speakers.map (·.percentage)).sum : ℕ)) : ℤ) ∧
      (((((recognizeSpeakers l).speakers.map (·.percentage)).sum : ℕ)) : ℤ) ≤
        100 + ((l.map (·.speaker)).toFinset.card : ℤ) := by
  have hN : 0 < l.length := List.length_pos.mpr h
  have hNZ : (0 : ℤ) < (l.length : ℤ) := by exact_mod_cast hN
  have hS : (recognizeSpeakers l).speakers.map (·.percentage) =
      ((dedupKeepFirst (l.map (·.speaker))).map
          (fun k => l.countP (fun u => u.speaker == k))).map
        (fun c => jsRound c l.length) := by
    rw [speakers_map_percentage, List.map_map]
    rfl
  have hsum : ((dedupKeepFirst (l.map (·.speaker))).map
      (fun k => l.countP (fun u => u.speaker == k))).sum = l.length := by
    have hpt : (dedupKeepFirst (l.map (·.speaker))).map
        (fun k => l.countP (fun u => u.speaker == k)) =
        (dedupKeepFirst (l.map (·.speaker))).map
          (fun k => (l.map (·.speaker)).countP (fun t => t == k)) := by
      apply List.map_congr_left
      intro k _
      rw [List.countP_map]
      rfl
    rw [hpt, sum_countP_dedupKeepFirst, List.length_map]
  have hlen : (((dedupKeepFirst (l.map (·.speaker))).map
      (fun k => l.countP (fun u => u.speaker == k))).length : ℤ) =
      ((l.map (·.speaker)).toFinset.card : ℤ) := by
    have h1 : ((dedupKeepFirst (l.map (·.speaker))).map
        (fun k => l.countP (fun u => u.speaker == k))).length =
        (dedupKeepFirst (l.map (·.speaker))).length := List.length_map _ _
    have h2 : (dedupKeepFirst (l.map (·.speaker))).toFinset = (l.map (·.speaker)).toFinset := by
      apply Finset.ext
      intro t
      simp [List.mem_toFinset, mem_dedupKeepFirst]
    have h3 : (dedupKeepFirst (l.map (·.speaker))).length = (l.map (·.speaker)).toFinset.card := by
      rw [← h2]
      exact (List.toFinset_card_of_nodup (nodup_dedupKeepFirst _)).symm
    rw [h1, h3]
  obtain ⟨hb1, hb2⟩ := sum_jsRound_bounds l.length hN
    ((dedupKeepFirst (l.map (·.speaker))).map (fun k => l.countP (fun u => u.speaker == k)))
  rw [hsum] at hb1 hb2
  rw [hlen] at hb1 hb2
  rw [hS]
  have hk0 : (0 : ℤ) ≤ ((l.map (·.speaker)).toFinset.card : ℤ) := by positivity
  constructor
  · have hmul : (2 * (l.length : ℤ)) *
        (100 - ((l.map (·.speaker)).toFinset.card : ℤ)) ≤
        (2 * (l.length : ℤ)) *
          ((((dedupKeepFirst (l.map (·.speaker))).map
              (fun k => l.countP (fun u => u.speaker == k))).map
            (fun c => jsRound c l.length)).sum : ℤ) := by
      nlinarith [hb1, hk0, hNZ, mul_nonneg hNZ.le hk0]
    exact le_of_mul_le_mul_left hmul (by positivity)
  · have hmul : (2 * (l.length : ℤ)) *
        ((((dedupKeepFirst (l.map (·.speaker))).map
            (fun k => l.countP (fun u => u.speaker == k))).map
          (fun c => jsRound c l.length)).sum : ℤ) ≤
        (2 * (l.length : ℤ)) * (100 + ((l.map (·.speaker)).toFinset.card : ℤ)) := by
      nlinarith [hb2, hk0, hNZ, mul_nonneg hNZ.le hk0]
    exact le_of_mul_le_mul_left hmul (by positivity)

/-- Witness for claim C8 at the concrete three-utterance list with two
speakers. -/
theorem speaker_percentage_sum_tolerance_witness :
    (100 : ℤ) - ((([(⟨"A", "hi"⟩ : Utterance), ⟨"A", "there"⟩, ⟨"B", "hello"⟩].map
          (·.speaker)).toFinset.card) : ℤ) ≤
        (((((recognizeSpeakers [⟨"A", "hi"⟩, ⟨"A", "there"⟩, ⟨"B", "hello"⟩]).speakers.map
            (·.percentage)).sum : ℕ)) : ℤ) ∧
      (((((recognizeSpeakers [⟨"A", "hi"⟩, ⟨"A", "there"⟩, ⟨"B", "hello"⟩]).speakers.map
            (·.percentage)).sum : ℕ)) : ℤ) ≤
        100 + ((([(⟨"A", "hi"⟩ : Utterance), ⟨"A", "there"⟩, ⟨"B", "hello"⟩].map
          (·.speaker)).toFinset.card) : ℤ) :=
  speaker_percentage_sum_tolerance [⟨"A", "hi"⟩, ⟨"A", "there"⟩, ⟨"B", "hello"⟩] (by decide)

/-- Claim C10: every utterance falls in exactly one emotion bucket, so
the four counters always sum to the length of the analyzed list, and
for every nonempty list each of the four pattern percentages lies
between 0 and 100. -/
theorem emotion_buckets_partition_and_bounded :
    (∀ l : List UtteranceWithSentiment,
        (emotionCounts l).positive + (emotionCounts l).neutral + (emotionCounts l).mixed +
            (emotionCounts l).negative = l.length) ∧
    (∀ l : List UtteranceWithSentiment, l ≠ [] →
        (0 ≤ (analyzeSentiment l).emotionalPatterns.positive ∧
            (analyzeSentiment l).emotionalPatterns.positive ≤ 100) ∧
        (0 ≤ (analyzeSentiment l).emotionalPatterns.neutral ∧
            (analyzeSentiment l).emotionalPatterns.neutral ≤ 100) ∧
        (0 ≤ (analyzeSentiment l).emotionalPatterns.mixed ∧
            (analyzeSentiment l).emotionalPatterns.mixed ≤ 100) ∧
        (0 ≤ (analyzeSentiment l).emotionalPatterns.negative ∧
            (analyzeSentiment l).emotionalPatterns.negative ≤ 100)) := by
  have hsum : ∀ l : List UtteranceWithSentiment,
      (emotionCounts l).positive + (emotionCounts l).neutral + (emotionCounts l).mixed +
        (emotionCounts l).negative = l.length := by
    intro l
    rw [emotionCounts_eq]
    exact bucketCount_sum l
  refine ⟨hsum, ?_⟩
  intro l hl
  have hN : 0 < l.length := List.length_pos.mpr hl
  have h := hsum l
  have h1 : (emotionCounts l).positive ≤ l.length := by omega
  have h2 : (emotionCounts l).neutral ≤ l.length := by omega
  have h3 : (emotionCounts l).mixed ≤ l.length := by omega
  have h4 : (emotionCounts l).negative ≤ l.length := by omega
  exact ⟨⟨Nat.zero_le _, jsRound_le_hundred _ _ hN h1⟩,
    ⟨Nat.zero_le _, jsRound_le_hundred _ _ hN h2⟩,
    ⟨Nat.zero_le _, jsRound_le_hundred _ _ hN h3⟩,
    ⟨Nat.zero_le _, jsRound_le_hundred _ _ hN h4⟩⟩

/-- Witness for claim C10 at a concrete two-utterance list. -/
theorem emotion_buckets_partition_and_bounded_witness :
    ((emotionCounts [⟨"A", "u1", ⟨"joy", 2, none, none⟩⟩,
          ⟨"B", "u2", ⟨"anger", 2, none, none⟩⟩]).positive +
        (emotionCounts [⟨"A", "u1", ⟨"joy", 2, none, none⟩⟩,
          ⟨"B", "u2", ⟨"anger", 2, none, none⟩⟩]).neutral +
        (emotionCounts [⟨"A", "u1", ⟨"joy", 2, none, none⟩⟩,
          ⟨"B", "u2", ⟨"anger", 2, none, none⟩⟩]).mixed +
        (emotionCounts [⟨"A", "u1", ⟨"joy", 2, none, none⟩⟩,
          ⟨"B", "u2", ⟨"anger", 2, none, none⟩⟩]).negative =
      ([⟨"A", "u1", ⟨"joy", 2, none, none⟩⟩,
        (⟨"B", "u2", ⟨"anger", 2, none, none⟩⟩ : UtteranceWithSentiment)]).length) ∧
    ((0 ≤ (analyzeSentiment [⟨"A", "u1", ⟨"joy", 2, none, none⟩⟩,
            ⟨"B", "u2", ⟨"anger", 2, none, none⟩⟩]).emotionalPatterns.positive ∧
        (analyzeSentiment [⟨"A", "u1", ⟨"joy", 2, none, none⟩⟩,
            ⟨"B", "u2", ⟨"anger", 2, none, none⟩⟩]).emotionalPatterns.positive ≤ 100) ∧
      (0 ≤ (analyzeSentiment [⟨"A", "u1", ⟨"joy", 2, none, none⟩⟩,
            ⟨"B", "u2", ⟨"anger", 2, none, none⟩⟩]).emotionalPatterns.neutral ∧
        (analyzeSentiment [⟨"A", "u1", ⟨"joy", 2, none, none⟩⟩,
            ⟨"B", "u2", ⟨"anger", 2, none, none⟩⟩]).emotionalPatterns.neutral ≤ 100) ∧
      (0 ≤ (analyzeSentiment [⟨"A", "u1", ⟨"joy", 2, none, none⟩⟩,
            ⟨"B", "u2", ⟨"anger", 2, none, none⟩⟩]).emotionalPatterns.mixed ∧
        (analyzeSentiment [⟨"A", "u1", ⟨"joy", 2, none, none⟩⟩,
            ⟨"B", "u2", ⟨"anger", 2, none, none⟩⟩]).emotionalPatterns.mixed ≤ 100) ∧
      (0 ≤ (analyzeSentiment [⟨"A", "u1", ⟨"joy", 2, none, none⟩⟩,
            ⟨"B", "u2", ⟨"anger", 2, none, none⟩⟩]).emotionalPatterns.negative ∧
        (analyzeSentiment [⟨"A", "u1", ⟨"joy", 2, none, none⟩⟩,
            ⟨"B", "u2", ⟨"anger", 2, none, none⟩⟩]).emotionalPatterns.negative ≤ 100)) :=
  ⟨emotion_buckets_partition_and_bounded.1 [⟨"A", "u1", ⟨"joy", 2, none, none⟩⟩,
      ⟨"B", "u2", ⟨"anger", 2, none, none⟩⟩],
   emotion_buckets_partition_and_bounded.2 [⟨"A", "u1", ⟨"joy", 2, none, none⟩⟩,
      ⟨"B", "u2", ⟨"anger", 2, none, none⟩⟩] (by decide)⟩

end TherapEase
